import Mathlib

/-!
Verification of the device discovery and flash-sequencing logic of
`biscuit_flash.py` (Biscuit Flash Utility).

The Python source is embedded shallowly: every subprocess invocation,
port enumeration and operator prompt is replaced by an explicit
environment value (streams of oracle answers), and each function of the
source becomes a pure Lean function of that environment.  The embedded
functions keep the names of their Python counterparts
(`detect_chip_type`, `scan_for_devices`, `flash_device`,
`list_com_ports`, `port_exists`, `prompt_retry`, `prompt_no_devices`,
`prompt_disconnect`), and the interactive main loop of `main()` becomes
the fueled interpreter `mainLoop` together with the per-device retry
interpreter `deviceLoop`, which additionally emit a trace of events
(flash attempts, result updates, operator choices) so that temporal
properties of a session can be stated as predicates over the trace.
-/

set_option maxHeartbeats 1000000

/-! ### Python string primitives -/

/-- Lowercasing as Python `str.lower` does on ASCII text. -/
def pyLower (s : String) : String :=
  String.mk (s.data.map Char.toLower)

/-- Whitespace characters stripped by Python `str.strip()` (ASCII set). -/
def isPySpace (c : Char) : Bool :=
  c == ' ' || c == '\t' || c == '\n' || c == '\r' || c == '\x0b' || c == '\x0c'

/-- Python `str.strip()`: drop leading and trailing whitespace. -/
def pyStrip (s : String) : String :=
  String.mk (((s.data.dropWhile isPySpace).reverse.dropWhile isPySpace).reverse)

/-- Does `needle` occur at the head of `hay`? -/
def headMatch : List Char → List Char → Bool
  | [], _ => true
  | _ :: _, [] => false
  | a :: as, b :: bs => a == b && headMatch as bs

/-- Python substring containment: does `needle` occur somewhere in `hay`? -/
def subMatch (needle : List Char) : List Char → Bool
  | [] => needle.isEmpty
  | b :: bs => headMatch needle (b :: bs) || subMatch needle bs

/-- Python `needle in hay` on strings. -/
def pyIn (needle hay : String) : Bool :=
  subMatch needle.data hay.data

/-! ### The two supported device types (`FLASH_CONFIG` keys `"c5"`, `"wroom"`) -/

inductive DevT where
  | c5
  | wroom
deriving DecidableEq, Repr

/-- One entry of the source's `FLASH_CONFIG` table. -/
structure FlashConfig where
  chip : String
  baud : String
  flash_freq : String
  name : String
deriving DecidableEq, Repr

/-- The source's `FLASH_CONFIG` dictionary. -/
def FLASH_CONFIG : DevT → FlashConfig
  | DevT.c5 => ⟨"esp32c5", "460800", "80m", "C5 Scanner"⟩
  | DevT.wroom => ⟨"esp32", "921600", "40m", "WROOM BLE Gateway"⟩

/-! ### Chip classification (`detect_chip_type`)

The esptool invocation is abstracted into its observable outcome: `none`
models a timeout or a raised exception, `some output` models a completed
run with `output = stdout + stderr`. -/

/-- Embedding of `detect_chip_type`: pattern-match the lowercased tool
output against chip-family substrings exactly as the source does. -/
def detect_chip_type (toolOut : Option String) : Option DevT :=
  match toolOut with
  | none => none
  | some output =>
    let ol := pyLower output
    if pyIn "esp32-c5" ol || pyIn "esp32c5" ol then some DevT.c5
    else if pyIn "esp32-c" ol || pyIn "esp32c" ol then none
    else if pyIn "esp32-d" ol || pyIn "esp32" ol then some DevT.wroom
    else none

/-! ### Port enumeration (`list_com_ports`, `port_exists`)

The platform enumeration is abstracted into an environment value.  The
pyserial branch of the source catches only `ImportError`: a failure of
`serial.tools.list_ports.comports()` itself is modelled as an
`Except.error` that propagates.  Every failure inside the PowerShell
fallback is caught by its blanket `except Exception`, so it is modelled
as a normal outcome that yields the empty list. -/

/-- A serial port as the source sees it (pyserial port object or the
fallback's `PortInfo` class): a device identifier and a description. -/
structure PortInfo where
  device : String
  description : String
deriving DecidableEq, Repr

/-- Outcome of the PowerShell fallback enumeration: either some step of
it raised (subprocess failure, timeout, JSON parse error — all caught by
the blanket handler), or the subprocess ran and returned an exit code,
a possibly blank stdout, and the ports parsed from that stdout. -/
inductive PsOutcome where
  | raised (msg : String)
  | ran (returncode : Int) (stdoutBlank : Bool) (parsed : List PortInfo)
deriving DecidableEq, Repr

/-- Environment of one `list_com_ports()` call. `pyserialOk` says whether
`import serial.tools.list_ports` succeeds; `comports` is the outcome of
the pyserial enumeration (an `Except.error` models a raised exception);
`ps` is the outcome of the PowerShell fallback. -/
structure EnumEnv where
  pyserialOk : Bool
  comports : Except String (List PortInfo)
  ps : PsOutcome

/-- Embedding of `list_com_ports`. An `Except.error` result models an
exception escaping to the caller. -/
def list_com_ports (env : EnumEnv) : Except String (List PortInfo) :=
  if env.pyserialOk then
    env.comports
  else
    match env.ps with
    | PsOutcome.raised _ => Except.ok []
    | PsOutcome.ran rc blank parsed =>
      if rc = 0 ∧ blank = false then Except.ok parsed else Except.ok []

/-- Embedding of `port_exists`, applied to the list a fresh enumeration
returned. -/
def port_exists (ports : List PortInfo) (port : String) : Bool :=
  ports.any (fun p => p.device == port)

/-! ### Device scanning (`scan_for_devices`) -/

/-- The source's `get_port_num` key: the integer formed by the digits of
the port identifier in order (all digits, wherever they occur); `0` when
`int` fails because there are no digits. -/
def get_port_num (p : PortInfo) : Nat :=
  (p.device.data.filter Char.isDigit).foldl (fun acc c => acc * 10 + (c.toNat - 48)) 0

/-- The comparison `sorted(..., key=get_port_num, reverse=True)` sorts by:
`a` before `b` iff `get_port_num b ≤ get_port_num a` (stable). -/
def portLe (a b : PortInfo) : Prop :=
  get_port_num b ≤ get_port_num a

instance : DecidableRel portLe := fun a b => Nat.decLe _ _

instance : IsTotal PortInfo portLe :=
  ⟨fun a b => Nat.le_total (get_port_num b) (get_port_num a)⟩

instance : IsTrans PortInfo portLe :=
  ⟨fun _ _ _ hab hbc => le_trans hbc hab⟩

/-- Descending stable sort of the enumerated ports, as
`sorted(ports, key=get_port_num, reverse=True)` computes it. -/
def sortPortsDesc (ports : List PortInfo) : List PortInfo :=
  List.insertionSort portLe ports

/-- Python truthiness of the optional port strings stored in the
`devices` dictionary (`None` and `""` are falsy). -/
def pyTruthy : Option String → Bool
  | none => false
  | some s => !s.isEmpty

/-- The `devices` dictionary built by one scan: at most one port per
device type. -/
structure Snapshot where
  c5 : Option String
  wroom : Option String
deriving DecidableEq, Repr

/-- The recording step of the scanning loop: classify one port and
record it under its detected type.  The source's plain assignment
`devices[...] = port` overwrites any previous entry. -/
def scanAssign (toolOut : String → Option String) (p : PortInfo) (snap : Snapshot) : Snapshot :=
  match detect_chip_type (toolOut p.device) with
  | some DevT.c5 => { snap with c5 := some p.device }
  | some DevT.wroom => { snap with wroom := some p.device }
  | none => snap

/-- The scanning loop of `scan_for_devices`: classify each port in
order, record it (via `scanAssign`), and stop early once both entries
are truthy.  Also returns the list of ports actually probed. -/
def scanLoop (toolOut : String → Option String) :
    List PortInfo → Snapshot → Snapshot × List PortInfo
  | [], snap => (snap, [])
  | p :: rest, snap =>
    let snap2 := scanAssign toolOut p snap
    if pyTruthy snap2.c5 && pyTruthy snap2.wroom then (snap2, [p])
    else
      let r := scanLoop toolOut rest snap2
      (r.1, p :: r.2)

/-- Embedding of `scan_for_devices`: `toolOut` gives, for each port
identifier, the outcome of the esptool `chip_id` probe on that port. -/
def scan_for_devices (toolOut : String → Option String) (ports : List PortInfo) :
    Snapshot × List PortInfo :=
  if ports.isEmpty then (⟨none, none⟩, [])
  else scanLoop toolOut (sortPortsDesc ports) ⟨none, none⟩

/-- Does probing port `p` classify it as type `t`? -/
def hitsType (toolOut : String → Option String) (t : DevT) (p : PortInfo) : Bool :=
  decide (detect_chip_type (toolOut p.device) = some t)

/-- First-some choice on optional strings. -/
def oor : Option String → Option String → Option String
  | some x, _ => some x
  | none, b => b

/-- The device of the last port in `ps` that classifies as type `t`. -/
def lastHit (toolOut : String → Option String) (t : DevT) : List PortInfo → Option String
  | [] => none
  | p :: ps =>
    oor (lastHit toolOut t ps) (if hitsType toolOut t p then some p.device else none)

/-- The device of the first port in `ps` that classifies as type `t`
(the assignment the claim predicts for the snapshot). -/
def firstHit (toolOut : String → Option String) (t : DevT) : List PortInfo → Option String
  | [] => none
  | p :: ps =>
    if hitsType toolOut t p then some p.device else firstHit toolOut t ps

/-- Project a snapshot entry by device type. -/
def snapGet (snap : Snapshot) : DevT → Option String
  | DevT.c5 => snap.c5
  | DevT.wroom => snap.wroom

/-! ### Fixtures for the scanner claims -/

/-- Probe oracle under which two ports both classify as C5. -/
def c1Tool : String → Option String :=
  fun d =>
    if d = "COM9" ∨ d = "COM8" then some "Detecting chip type... ESP32-C5 (revision v1.0)"
    else none

def c1Ports : List PortInfo :=
  [⟨"COM9", "USB Serial Device"⟩, ⟨"COM8", "USB Serial Device"⟩]

/-- Probe oracle finding a C5 on COM7 and a WROOM on COM3. -/
def c1wTool : String → Option String :=
  fun d =>
    if d = "COM7" then some "Chip is ESP32-C5 (revision v1.0)"
    else if d = "COM3" then some "Chip is ESP32-D0WD-V3 (revision v3.1)"
    else none

def c1wPorts : List PortInfo :=
  [⟨"COM7", ""⟩, ⟨"COM3", ""⟩]

/-- Modelled from the spec's words for the refinement claim about probe
ordering: the key is `the numeric suffix extracted from the port
identifier` (its trailing run of digits), `0` when there is none. -/
def specSuffixKey (p : PortInfo) : Nat :=
  ((p.device.data.reverse.takeWhile Char.isDigit).reverse).foldl
    (fun acc c => acc * 10 + (c.toNat - 48)) 0

def c7Ports : List PortInfo :=
  [⟨"/dev/tty.usbserial-B2", "FTDI"⟩, ⟨"/dev/tty.usbserial-A601Z5X1", "FTDI"⟩]

/-! ### Flash execution (`flash_device`)

The two esptool subprocess invocations (erase, write) are abstracted
into environment values.  The failure reasons the source returns as
strings become the constructors of `FlashErr` (with `errText` giving
back the exact source strings); `raisedMsg` models the blanket
`except Exception as e: return False, str(e)` handler. -/

/-- Outcome of the bounded erase subprocess. -/
inductive EraseOutcome where
  | ran (returncode : Int)
  | timedOut
deriving DecidableEq, Repr

/-- Outcome of the write subprocess: a completed run with its captured
output lines and exit code, a timeout of the bounded wait, or an
exception raised while driving the subprocess. -/
inductive WriteOutcome where
  | ran (lines : List String) (returncode : Int)
  | timedOut
  | raised (msg : String)
deriving DecidableEq, Repr

/-- Environment of one `flash_device` call: the fresh port enumeration
at the verification step, and the outcomes of the two tool runs. -/
structure FlashEnv where
  portsAtVerify : List PortInfo
  eraseRun : EraseOutcome
  writeRun : WriteOutcome

/-- The failure taxonomy of `flash_device`, one constructor per distinct
return site of the source. -/
inductive FlashErr where
  | disconnected
  | eraseFailed
  | eraseTimedOut
  | connectFailed
  | connectTimedOut
  | portBusy
  | unknownFailure (code : Int)
  | opTimedOut
  | raisedMsg (msg : String)
deriving DecidableEq, Repr

/-- The exact error strings the source returns for each failure. -/
def errText : FlashErr → String
  | FlashErr.disconnected => "Device disconnected"
  | FlashErr.eraseFailed => "Erase failed"
  | FlashErr.eraseTimedOut => "Erase timed out"
  | FlashErr.connectFailed => "Failed to connect (device not in download mode?)"
  | FlashErr.connectTimedOut => "Connection timed out"
  | FlashErr.portBusy => "Permission denied (port in use by another program?)"
  | FlashErr.unknownFailure code => "Flash failed (exit code " ++ toString code ++ ")"
  | FlashErr.opTimedOut => "Flash operation timed out"
  | FlashErr.raisedMsg m => m

/-- Result of one `flash_device` call, together with which tool
invocations were actually attempted. -/
structure FlashResult where
  res : Except FlashErr Unit
  eraseRan : Bool
  writeRan : Bool

/-- The source's nonzero-exit classification of the captured output
(`"\n".join(output_lines)`), in its priority order; zero exit is
success.  The permission check reproduces the source verbatim: the
source tests `"Permission" in output.lower()`, a needle with a capital
`P` searched inside the lowercased output — a condition that can never
hold (see `pyIn_Permission_pyLower`), so the `portBusy` branch is
unreachable. -/
def classifyWriteOutput (lines : List String) (code : Int) : Except FlashErr Unit :=
  let output := String.intercalate "\n" lines
  if code = 0 then Except.ok ()
  else if pyIn "Failed to connect" output then Except.error FlashErr.connectFailed
  else if pyIn "Timed out" output then Except.error FlashErr.connectTimedOut
  else if pyIn "Permission" (pyLower output) then Except.error FlashErr.portBusy
  else Except.error (FlashErr.unknownFailure code)

/-- The write phase of `flash_device` (the `write_flash` subprocess and
its result handling). -/
def runWrite (env : FlashEnv) (eraseRan : Bool) : FlashResult :=
  match env.writeRun with
  | WriteOutcome.ran lines code => ⟨classifyWriteOutput lines code, eraseRan, true⟩
  | WriteOutcome.timedOut => ⟨Except.error FlashErr.opTimedOut, eraseRan, true⟩
  | WriteOutcome.raised m => ⟨Except.error (FlashErr.raisedMsg m), eraseRan, true⟩

/-- Embedding of `flash_device`: verify the port is still enumerated
(else fail immediately with `disconnected`), optionally erase (erase
failure or timeout short-circuits), then write and classify. -/
def flash_device (device_type : DevT) (port : String) (firmware_path : String)
    (erase_first : Bool) (env : FlashEnv) : FlashResult :=
  if port_exists env.portsAtVerify port = false then
    ⟨Except.error FlashErr.disconnected, false, false⟩
  else if erase_first then
    match env.eraseRun with
    | EraseOutcome.ran rc =>
      if rc ≠ 0 then ⟨Except.error FlashErr.eraseFailed, true, false⟩
      else runWrite env true
    | EraseOutcome.timedOut => ⟨Except.error FlashErr.eraseTimedOut, true, false⟩
  else runWrite env false

/-! ### Operator prompts

Each prompt reads lines from stdin until one parses as a valid choice;
end of input (`EOFError` / `KeyboardInterrupt`) yields `quit`, as the
source's exception handlers do.  The parsing of one line reproduces the
source's condition chains verbatim, including the redundant comparison
`choice == "" or choice == "r" and len(choice) == 0` of the retry
menu. -/

/-- The five choices of the retry menu. -/
inductive RetryAction where
  | retry
  | erase
  | skip
  | rescan
  | quit
deriving DecidableEq, Repr

/-- The two choices of the no-devices / disconnect prompts. -/
inductive RescanAction where
  | rescan
  | quit
deriving DecidableEq, Repr

/-- One iteration of the `prompt_retry` input loop: the source's
condition chain on `choice = input().strip().lower()`, `none` for an
invalid entry (which makes the loop re-prompt). -/
def parseRetryChoice (raw : String) : Option RetryAction :=
  let choice := pyLower (pyStrip raw)
  if choice = "" ∨ (choice = "r" ∧ choice.length = 0) then some RetryAction.retry
  else if choice = "e" then some RetryAction.erase
  else if choice = "s" then some RetryAction.skip
  else if choice = "r" then some RetryAction.rescan
  else if choice = "q" then some RetryAction.quit
  else none

/-- Embedding of `prompt_retry` over the remaining stdin lines. -/
def prompt_retry : List String → RetryAction × List String
  | [] => (RetryAction.quit, [])
  | raw :: rest =>
    match parseRetryChoice raw with
    | some a => (a, rest)
    | none => prompt_retry rest

/-- One iteration of the `prompt_no_devices` / `prompt_disconnect`
input loops (their condition chains are identical). -/
def parseRescanChoice (raw : String) : Option RescanAction :=
  let choice := pyLower (pyStrip raw)
  if choice = "" ∨ choice = "r" then some RescanAction.rescan
  else if choice = "q" then some RescanAction.quit
  else none

/-- Embedding of `prompt_no_devices` over the remaining stdin lines. -/
def prompt_no_devices : List String → RescanAction × List String
  | [] => (RescanAction.quit, [])
  | raw :: rest =>
    match parseRescanChoice raw with
    | some a => (a, rest)
    | none => prompt_no_devices rest

/-- Embedding of `prompt_disconnect` over the remaining stdin lines. -/
def prompt_disconnect : List String → RescanAction × List String
  | [] => (RescanAction.quit, [])
  | raw :: rest =>
    match parseRescanChoice raw with
    | some a => (a, rest)
    | none => prompt_disconnect rest

/-! ### The session loop of `main()`

The post-download part of `main()` (its `while True` flash loop) is
embedded as the fueled interpreter `mainLoop`.  Environment:

* `toolOut` — the probe oracle used by every scan;
* a list of port enumerations, one per loop iteration (the result of
  `list_com_ports()` inside that iteration's `scan_for_devices()`);
* a stdin stream of raw operator input lines, consumed by the prompts;
* a stream of per-attempt outcomes: for each `flash_device` call, its
  success bit, and the result of the fresh `port_exists` check that the
  source performs when the attempt failed.

The interpreter also emits a trace of events so temporal claims
(terminal outcomes are final, erase-flag discipline) can be stated. -/

/-- Oracle data consumed by one flash attempt inside the session loop:
whether `flash_device` succeeded, and whether `port_exists` still finds
the port right after a failure. -/
structure AttemptEnv where
  flashOk : Bool
  portAfter : Bool
deriving DecidableEq, Repr

/-- Events of a session trace. -/
inductive Ev where
  | seqStart (dt : DevT)
  | attempt (dt : DevT) (port : String) (eraseFirst : Bool)
  | setResult (dt : DevT) (success : Bool)
  | chose (dt : DevT) (a : RetryAction)
  | discChoice (dt : DevT) (a : RescanAction)
deriving DecidableEq, Repr

/-- The device type an event belongs to. -/
def Ev.dev : Ev → DevT
  | Ev.seqStart dt => dt
  | Ev.attempt dt _ _ => dt
  | Ev.setResult dt _ => dt
  | Ev.chose dt _ => dt
  | Ev.discChoice dt _ => dt

/-- How one run of the per-device retry loop ends. -/
inductive LoopExit where
  | flashed
  | skipped
  | toRescan
  | quitProg
deriving DecidableEq, Repr

/-- Output of `deviceLoop`: how it ended (`none` = out of fuel or oracle
data), the remaining streams, and the emitted trace. -/
structure DLOut where
  exit : Option LoopExit
  stdin : List String
  att : List AttemptEnv
  trace : List Ev
deriving Repr

/-- The per-device `while True` retry loop of `main()` (the C5 and WROOM
sections are textually identical up to the device type).  One iteration:
call `flash_device` (outcome from the stream); on success record success
and stop; on failure check `port_exists` — if the port vanished run the
disconnect prompt (rescan stops the loop, quit aborts the program),
otherwise run the retry menu (retry clears the erase flag and loops,
erase sets it and loops, skip records a skip and stops, rescan stops,
quit aborts). -/
def deviceLoop (dt : DevT) (port : String) :
    Nat → Bool → List String → List AttemptEnv → DLOut
  | 0, _, stdin, att => ⟨none, stdin, att, []⟩
  | _ + 1, _, stdin, [] => ⟨none, stdin, [], []⟩
  | fuel + 1, eraseFlash, stdin, aenv :: restA =>
    if aenv.flashOk then
      ⟨some LoopExit.flashed, stdin, restA,
        [Ev.attempt dt port eraseFlash, Ev.setResult dt true]⟩
    else if aenv.portAfter then
      match prompt_retry stdin with
      | (RetryAction.retry, rest) =>
        match deviceLoop dt port fuel false rest restA with
        | ⟨ex, stdin1, att1, tr⟩ =>
          ⟨ex, stdin1, att1,
            Ev.attempt dt port eraseFlash :: Ev.chose dt RetryAction.retry :: tr⟩
      | (RetryAction.erase, rest) =>
        match deviceLoop dt port fuel true rest restA with
        | ⟨ex, stdin1, att1, tr⟩ =>
          ⟨ex, stdin1, att1,
            Ev.attempt dt port eraseFlash :: Ev.chose dt RetryAction.erase :: tr⟩
      | (RetryAction.skip, rest) =>
        ⟨some LoopExit.skipped, rest, restA,
          [Ev.attempt dt port eraseFlash, Ev.chose dt RetryAction.skip,
            Ev.setResult dt false]⟩
      | (RetryAction.rescan, rest) =>
        ⟨some LoopExit.toRescan, rest, restA,
          [Ev.attempt dt port eraseFlash, Ev.chose dt RetryAction.rescan]⟩
      | (RetryAction.quit, rest) =>
        ⟨some LoopExit.quitProg, rest, restA,
          [Ev.attempt dt port eraseFlash, Ev.chose dt RetryAction.quit]⟩
    else
      match prompt_disconnect stdin with
      | (RescanAction.rescan, rest) =>
        ⟨some LoopExit.toRescan, rest, restA,
          [Ev.attempt dt port eraseFlash, Ev.discChoice dt RescanAction.rescan]⟩
      | (RescanAction.quit, rest) =>
        ⟨some LoopExit.quitProg, rest, restA,
          [Ev.attempt dt port eraseFlash, Ev.discChoice dt RescanAction.quit]⟩

/-- How one per-device section of the outer loop ends: continue the
iteration with this (possibly updated) outcome, abort the program, or
out of fuel. -/
inductive SectionRes where
  | proceed (r : Option Bool)
  | quitNow
  | fuelOut
deriving DecidableEq, Repr

/-- Output of one per-device section. -/
structure SecOut where
  res : SectionRes
  stdin : List String
  att : List AttemptEnv
  trace : List Ev
deriving Repr

/-- One `if devices[dt] and flash_results[dt] is None:` section of the
outer loop: run the retry loop (with the erase flag freshly cleared)
only when the snapshot has a truthy port for `dt` and the outcome is
still pending. -/
def runSection (dt : DevT) (fuel : Nat) (portOpt : Option String) (cur : Option Bool)
    (stdin : List String) (att : List AttemptEnv) : SecOut :=
  match portOpt, cur with
  | some port, none =>
    if port.isEmpty then ⟨SectionRes.proceed none, stdin, att, []⟩
    else
      match deviceLoop dt port fuel false stdin att with
      | ⟨none, stdin1, att1, tr⟩ =>
        ⟨SectionRes.fuelOut, stdin1, att1, Ev.seqStart dt :: tr⟩
      | ⟨some LoopExit.flashed, stdin1, att1, tr⟩ =>
        ⟨SectionRes.proceed (some true), stdin1, att1, Ev.seqStart dt :: tr⟩
      | ⟨some LoopExit.skipped, stdin1, att1, tr⟩ =>
        ⟨SectionRes.proceed (some false), stdin1, att1, Ev.seqStart dt :: tr⟩
      | ⟨some LoopExit.toRescan, stdin1, att1, tr⟩ =>
        ⟨SectionRes.proceed none, stdin1, att1, Ev.seqStart dt :: tr⟩
      | ⟨some LoopExit.quitProg, stdin1, att1, tr⟩ =>
        ⟨SectionRes.quitNow, stdin1, att1, Ev.seqStart dt :: tr⟩
  | none, _ => ⟨SectionRes.proceed cur, stdin, att, []⟩
  | some _, some _ => ⟨SectionRes.proceed cur, stdin, att, []⟩

/-- The source's `flash_results` dictionary: `none` pending, `some true`
succeeded, `some false` skipped. -/
structure Results where
  c5 : Option Bool
  wroom : Option Bool
deriving DecidableEq, Repr

/-- Project a results entry by device type. -/
def getRes (r : Results) : DevT → Option Bool
  | DevT.c5 => r.c5
  | DevT.wroom => r.wroom

/-- How a session ends: falling out of the loop into the final summary,
or an operator quit that returns 1 before the summary. -/
inductive SessionExit where
  | finished (r : Results)
  | quitEarly (r : Results)
deriving DecidableEq, Repr

/-- The results in force when the session ended. -/
def exitResults : SessionExit → Results
  | SessionExit.finished r => r
  | SessionExit.quitEarly r => r

/-- The process exit code of `main()`: quit paths `return 1`
immediately; the summary path returns 0 iff at least one device type
succeeded. -/
def sessionExitCode : SessionExit → Nat
  | SessionExit.finished r => if r.c5 = some true ∨ r.wroom = some true then 0 else 1
  | SessionExit.quitEarly _ => 1

/-- Output of the session loop: how it ended (`none` = out of fuel or
oracle data) and the emitted trace. -/
structure MLOut where
  exit : Option SessionExit
  trace : List Ev
deriving Repr

/-- The `while True` flash loop of `main()` (its post-download part):
scan; if no device is found, run the no-devices prompt (quit exits 1,
otherwise rescan); else run the C5 section then the WROOM section; a
quit anywhere exits 1 immediately; when nothing is pending any more,
fall out to the summary; when something is pending but something else
was handled, a plain inline prompt offers to keep scanning (`q` or end
of input falls out to the summary). -/
def mainLoop (toolOut : String → Option String) :
    Nat → Results → List (List PortInfo) → List String → List AttemptEnv → MLOut
  | 0, _, _, _, _ => ⟨none, []⟩
  | _ + 1, _, [], _, _ => ⟨none, []⟩
  | fuel + 1, r, ports :: scansR, stdin, att =>
    let snap := (scan_for_devices toolOut ports).1
    if (pyTruthy snap.c5 || pyTruthy snap.wroom) = false then
      match prompt_no_devices stdin with
      | (RescanAction.quit, _) => ⟨some (SessionExit.quitEarly r), []⟩
      | (RescanAction.rescan, rest) => mainLoop toolOut fuel r scansR rest att
    else
      match runSection DevT.c5 fuel snap.c5 r.c5 stdin att with
      | ⟨SectionRes.quitNow, _, _, tr1⟩ => ⟨some (SessionExit.quitEarly r), tr1⟩
      | ⟨SectionRes.fuelOut, _, _, tr1⟩ => ⟨none, tr1⟩
      | ⟨SectionRes.proceed rc5, stdin1, att1, tr1⟩ =>
        match runSection DevT.wroom fuel snap.wroom r.wroom stdin1 att1 with
        | ⟨SectionRes.quitNow, _, _, tr2⟩ =>
          ⟨some (SessionExit.quitEarly ⟨rc5, r.wroom⟩), tr1 ++ tr2⟩
        | ⟨SectionRes.fuelOut, _, _, tr2⟩ => ⟨none, tr1 ++ tr2⟩
        | ⟨SectionRes.proceed rw, stdin2, att2, tr2⟩ =>
          if rc5.isSome ∧ rw.isSome then
            ⟨some (SessionExit.finished ⟨rc5, rw⟩), tr1 ++ tr2⟩
          else if rc5.isSome ∨ rw.isSome then
            match stdin2 with
            | [] => ⟨some (SessionExit.finished ⟨rc5, rw⟩), tr1 ++ tr2⟩
            | l :: stdinR =>
              if pyLower (pyStrip l) = "q" then
                ⟨some (SessionExit.finished ⟨rc5, rw⟩), tr1 ++ tr2⟩
              else
                match mainLoop toolOut fuel ⟨rc5, rw⟩ scansR stdinR att2 with
                | ⟨ex, tr3⟩ => ⟨ex, tr1 ++ tr2 ++ tr3⟩
          else
            match mainLoop toolOut fuel ⟨rc5, rw⟩ scansR stdin2 att2 with
            | ⟨ex, tr3⟩ => ⟨ex, tr1 ++ tr2 ++ tr3⟩

/-! ### Trace predicates -/

/-- Is `e` a `setResult` event for device type `dt`? -/
def isSetEv (dt : DevT) : Ev → Bool
  | Ev.setResult d _ => decide (d = dt)
  | _ => false

/-- Is `e` a flash attempt event for device type `dt`? -/
def isAttemptEv (dt : DevT) : Ev → Bool
  | Ev.attempt d _ _ => decide (d = dt)
  | _ => false

/-- Does the trace contain a `setResult` event for `dt`? -/
def hasSet (dt : DevT) (tr : List Ev) : Bool :=
  tr.any (isSetEv dt)

/-- Scanning check for claim C4: once a `setResult` event for `dt` has
been seen, no further attempt for `dt` and no further result update for
`dt` may occur. -/
def terminalOnce (dt : DevT) : Bool → List Ev → Bool
  | _, [] => true
  | seen, e :: rest =>
    (!seen || (!isAttemptEv dt e && !isSetEv dt e)) &&
      terminalOnce dt (seen || isSetEv dt e) rest

/-- The last event of `tr`, or `p` when `tr` is empty. -/
def lastOr (p : Option Ev) : List Ev → Option Ev
  | [] => p
  | e :: tr => lastOr (some e) tr

/-- Does this retry-menu choice set the erase flag? -/
def choiceErase : RetryAction → Bool
  | RetryAction.erase => true
  | _ => false

/-- May an attempt for `dt` with erase flag `ef` immediately follow the
event `prev`?  Only at the start of a fresh sequence (flag cleared) or
right after a retry-menu choice (flag set exactly by `erase`, cleared by
anything else that loops, i.e. `retry`). -/
def prevAllows (dt : DevT) (ef : Bool) : Option Ev → Bool
  | some (Ev.seqStart d) => decide (d = dt) && !ef
  | some (Ev.chose d a) => decide (d = dt) && (ef == choiceErase a)
  | _ => false

/-- Scanning check for claim C5: every attempt event for `dt` in the
trace is justified by the event immediately before it, `prev` being the
event preceding the trace. -/
def eraseDiscipline (dt : DevT) : Option Ev → List Ev → Bool
  | _, [] => true
  | prev, e :: rest =>
    (match e with
     | Ev.attempt d _ ef => if d = dt then prevAllows dt ef prev else true
     | _ => true) && eraseDiscipline dt (some e) rest

/-! ### Fixtures for the session claims -/

/-- Probe oracle for the C4 witness session. -/
def c4Tool : String → Option String :=
  fun d =>
    if d = "COM7" then some "Chip is ESP32-C5 (revision v1.0)"
    else if d = "COM3" then some "Chip is ESP32-D0WD (revision v3.1)"
    else none

/-- Probe oracle for the C10 witness session. -/
def c10Tool : String → Option String :=
  fun d =>
    if d = "COM7" then some "Chip is ESP32-C5 (revision v1.0)"
    else if d = "COM3" then some "Chip is ESP32-D0WD (revision v3.1)"
    else none

/-! ### Substring lemmas -/

theorem headMatch_append {n m h : List Char} (hnm : headMatch (n ++ m) h = true) :
    headMatch n h = true := by
  induction n generalizing h with
  | nil => rfl
  | cons a as ih =>
    cases h with
    | nil => simp [headMatch] at hnm
    | cons b bs =>
      simp only [List.cons_append, headMatch, Bool.and_eq_true] at hnm ⊢
      exact ⟨hnm.1, ih hnm.2⟩

theorem subMatch_append {n m h : List Char} (hnm : subMatch (n ++ m) h = true) :
    subMatch n h = true := by
  induction h with
  | nil =>
    simp only [subMatch, List.isEmpty_eq_true, List.append_eq_nil] at hnm ⊢
    exact hnm.1
  | cons b bs ih =>
    simp only [subMatch, Bool.or_eq_true] at hnm ⊢
    rcases hnm with hh | ht
    · exact Or.inl (headMatch_append hh)
    · exact Or.inr (ih ht)

theorem pyIn_of_pyIn_append {n m h : String} (hnm : pyIn (String.mk (n.data ++ m.data)) h = true) :
    pyIn n h = true :=
  subMatch_append hnm

/-! ### Scanner lemmas -/

theorem oor_assoc (a b c : Option String) : oor (oor a b) c = oor a (oor b c) := by
  cases a <;> rfl

theorem oor_none (a : Option String) : oor a none = a := by
  cases a <;> rfl

theorem scanAssign_c5 (toolOut : String → Option String) (p : PortInfo) (snap : Snapshot) :
    (scanAssign toolOut p snap).c5
      = oor (if hitsType toolOut DevT.c5 p then some p.device else none) snap.c5 := by
  unfold scanAssign hitsType
  cases hchip : detect_chip_type (toolOut p.device) with
  | none => simp [oor, hchip]
  | some t => cases t <;> simp [oor, hchip]

theorem scanAssign_wroom (toolOut : String → Option String) (p : PortInfo) (snap : Snapshot) :
    (scanAssign toolOut p snap).wroom
      = oor (if hitsType toolOut DevT.wroom p then some p.device else none) snap.wroom := by
  unfold scanAssign hitsType
  cases hchip : detect_chip_type (toolOut p.device) with
  | none => simp [oor, hchip]
  | some t => cases t <;> simp [oor, hchip]

theorem scanAssign_classified (toolOut : String → Option String) (p : PortInfo) (snap : Snapshot)
    (hc : ∀ d, snap.c5 = some d → detect_chip_type (toolOut d) = some DevT.c5)
    (hw : ∀ d, snap.wroom = some d → detect_chip_type (toolOut d) = some DevT.wroom) :
    (∀ d, (scanAssign toolOut p snap).c5 = some d →
        detect_chip_type (toolOut d) = some DevT.c5) ∧
    (∀ d, (scanAssign toolOut p snap).wroom = some d →
        detect_chip_type (toolOut d) = some DevT.wroom) := by
  unfold scanAssign
  cases hchip : detect_chip_type (toolOut p.device) with
  | none => exact ⟨hc, hw⟩
  | some t =>
    cases t with
    | c5 =>
      refine ⟨fun d hd => ?_, hw⟩
      obtain rfl : p.device = d := Option.some.inj hd
      exact hchip
    | wroom =>
      refine ⟨hc, fun d hd => ?_⟩
      obtain rfl : p.device = d := Option.some.inj hd
      exact hchip

theorem scanLoop_classified (toolOut : String → Option String) (ps : List PortInfo)
    (snap : Snapshot)
    (hc : ∀ d, snap.c5 = some d → detect_chip_type (toolOut d) = some DevT.c5)
    (hw : ∀ d, snap.wroom = some d → detect_chip_type (toolOut d) = some DevT.wroom) :
    (∀ d, (scanLoop toolOut ps snap).1.c5 = some d →
        detect_chip_type (toolOut d) = some DevT.c5) ∧
    (∀ d, (scanLoop toolOut ps snap).1.wroom = some d →
        detect_chip_type (toolOut d) = some DevT.wroom) := by
  induction ps generalizing snap with
  | nil => exact ⟨hc, hw⟩
  | cons p rest ih =>
    have h2 := scanAssign_classified toolOut p snap hc hw
    simp only [scanLoop]
    split
    · exact h2
    · exact ih (scanAssign toolOut p snap) h2.1 h2.2

theorem scanLoop_lastHit (toolOut : String → Option String) (ps : List PortInfo)
    (snap : Snapshot) :
    (scanLoop toolOut ps snap).1.c5
        = oor (lastHit toolOut DevT.c5 (scanLoop toolOut ps snap).2) snap.c5 ∧
    (scanLoop toolOut ps snap).1.wroom
        = oor (lastHit toolOut DevT.wroom (scanLoop toolOut ps snap).2) snap.wroom := by
  induction ps generalizing snap with
  | nil => simp [scanLoop, lastHit, oor]
  | cons p rest ih =>
    simp only [scanLoop]
    split
    · constructor
      · rw [scanAssign_c5]
        simp [lastHit, oor]
      · rw [scanAssign_wroom]
        simp [lastHit, oor]
    · have ihs := ih (scanAssign toolOut p snap)
      constructor
      · rw [ihs.1, scanAssign_c5]
        simp only [lastHit, oor_assoc]
      · rw [ihs.2, scanAssign_wroom]
        simp only [lastHit, oor_assoc]

theorem scanLoop_probed (toolOut : String → Option String) (ps : List PortInfo)
    (snap : Snapshot) :
    ∃ tail, ps = (scanLoop toolOut ps snap).2 ++ tail := by
  induction ps generalizing snap with
  | nil => exact ⟨[], rfl⟩
  | cons p rest ih =>
    simp only [scanLoop]
    split
    · exact ⟨rest, rfl⟩
    · obtain ⟨tail, htail⟩ := ih (scanAssign toolOut p snap)
      refine ⟨tail, ?_⟩
      simp only [List.cons_append]
      exact congrArg (p :: ·) htail

/-! ### Claim C1 -/

/-- C1 counterexample: with two ports COM9, COM8 (probed in that order)
that both classify as C5, the first port found in scan order is COM9,
but the snapshot records COM8 — the later assignment overwrote the
earlier one, so the claimed first-found-wins rule is false. -/
theorem scan_first_found_fails :
    firstHit c1Tool DevT.c5 (scan_for_devices c1Tool c1Ports).2 = some "COM9" ∧
    (scan_for_devices c1Tool c1Ports).1.c5 = some "COM8" ∧
    some "COM8" ≠ (some "COM9" : Option String) := by decide

/-- C1 (amended): a snapshot produced by `scan_for_devices` never
assigns the same port to two device types; and for each device type the
recorded port is the LAST port among those probed that classifies as
that type (a later classification overwrites an earlier one; probing
stops early once both types are assigned). -/
theorem scan_assignment (toolOut : String → Option String) (ports : List PortInfo) :
    (∀ d, (scan_for_devices toolOut ports).1.c5 = some d →
        (scan_for_devices toolOut ports).1.wroom ≠ some d) ∧
    (scan_for_devices toolOut ports).1.c5
        = lastHit toolOut DevT.c5 (scan_for_devices toolOut ports).2 ∧
    (scan_for_devices toolOut ports).1.wroom
        = lastHit toolOut DevT.wroom (scan_for_devices toolOut ports).2 := by
  unfold scan_for_devices
  split
  · refine ⟨fun d hd => ?_, rfl, rfl⟩
    exact Option.noConfusion hd
  · have hcl := scanLoop_classified toolOut (sortPortsDesc ports) ⟨none, none⟩
      (fun d hd => Option.noConfusion hd) (fun d hd => Option.noConfusion hd)
    have hlh := scanLoop_lastHit toolOut (sortPortsDesc ports) ⟨none, none⟩
    refine ⟨fun d hd hw => ?_, ?_, ?_⟩
    · have h1 := hcl.1 d hd
      have h2 := hcl.2 d hw
      rw [h1] at h2
      exact DevT.noConfusion (Option.some.inj h2)
    · rw [hlh.1, oor_none]
    · rw [hlh.2, oor_none]

/-- C1 witness: a concrete scan finding a C5 on COM7 and a WROOM on
COM3; the no-shared-port guarantee applied at that input. -/
theorem scan_assignment_witness :
    (scan_for_devices c1wTool c1wPorts).1.wroom ≠ some "COM7" :=
  (scan_assignment c1wTool c1wPorts).1 "COM7" (by decide)

/-! ### Claim C7 -/

/-- C7 counterexample: the scanner probes the port whose identifier has
numeric suffix 1 (but scattered digits 60151) BEFORE the port whose
numeric suffix is 2, so the probe order is not descending in the
numeric suffix: the sort key actually used concatenates every digit of
the identifier, not just a suffix. -/
theorem scan_probe_order_not_suffix_sorted :
    (scan_for_devices (fun _ => none) c7Ports).2.map PortInfo.device
        = ["/dev/tty.usbserial-A601Z5X1", "/dev/tty.usbserial-B2"] ∧
    specSuffixKey ⟨"/dev/tty.usbserial-A601Z5X1", "FTDI"⟩ = 1 ∧
    specSuffixKey ⟨"/dev/tty.usbserial-B2", "FTDI"⟩ = 2 ∧
    ¬ (specSuffixKey ⟨"/dev/tty.usbserial-B2", "FTDI"⟩
        ≤ specSuffixKey ⟨"/dev/tty.usbserial-A601Z5X1", "FTDI"⟩) := by decide

/-- C7 (amended): the scanner probes a prefix of the enumerated ports
sorted stably in descending order of `get_port_num`, the integer formed
by concatenating every decimal digit of the port identifier (0 when the
identifier has no digits). -/
theorem scan_probe_order (toolOut : String → Option String) (ports : List PortInfo) :
    (∃ tail, sortPortsDesc ports = (scan_for_devices toolOut ports).2 ++ tail) ∧
    (sortPortsDesc ports).Perm ports ∧
    List.Sorted portLe (sortPortsDesc ports) := by
  refine ⟨?_, List.perm_insertionSort portLe ports, List.sorted_insertionSort portLe ports⟩
  unfold scan_for_devices
  split
  · exact ⟨sortPortsDesc ports, by simp⟩
  · exact scanLoop_probed toolOut (sortPortsDesc ports) ⟨none, none⟩

/-! ### Claim C2 -/

theorem pyIn_c3_c {h : String} (hin : pyIn "esp32-c3" h = true) :
    pyIn "esp32-c" h = true := by
  have he : ("esp32-c3".data : List Char) = "esp32-c".data ++ "3".data := by decide
  unfold pyIn at hin ⊢
  rw [he] at hin
  exact subMatch_append hin

theorem pyIn_c5_c {h : String} (hin : pyIn "esp32-c5" h = true) :
    pyIn "esp32-c" h = true := by
  have he : ("esp32-c5".data : List Char) = "esp32-c".data ++ "5".data := by decide
  unfold pyIn at hin ⊢
  rw [he] at hin
  exact subMatch_append hin

theorem pyIn_c5n_cn {h : String} (hin : pyIn "esp32c5" h = true) :
    pyIn "esp32c" h = true := by
  have he : ("esp32c5".data : List Char) = "esp32c".data ++ "5".data := by decide
  unfold pyIn at hin ⊢
  rw [he] at hin
  exact subMatch_append hin

/-- C2: classifier output containing `esp32-c5` (any case) yields the
ScannerModule tag `c5`; output containing `esp32-c3` (and no C5 marker)
yields Unknown (`none`), not a supported type; output containing
`esp32` with no C-family marker yields the GatewayModule tag `wroom`;
and a timeout or invocation failure (`none`) yields Unknown. -/
theorem detect_chip_classification (s : String) :
    (pyIn "esp32-c5" (pyLower s) = true → detect_chip_type (some s) = some DevT.c5) ∧
    (pyIn "esp32-c3" (pyLower s) = true → pyIn "esp32-c5" (pyLower s) = false →
        pyIn "esp32c5" (pyLower s) = false → detect_chip_type (some s) = none) ∧
    (pyIn "esp32" (pyLower s) = true → pyIn "esp32-c" (pyLower s) = false →
        pyIn "esp32c" (pyLower s) = false → detect_chip_type (some s) = some DevT.wroom) ∧
    detect_chip_type none = none := by
  refine ⟨?_, ?_, ?_, rfl⟩
  · intro h1
    simp [detect_chip_type, h1]
  · intro h3 h5 h5n
    have hc : pyIn "esp32-c" (pyLower s) = true := pyIn_c3_c h3
    simp [detect_chip_type, h5, h5n, hc]
  · intro h0 hc hcn
    have h5 : pyIn "esp32-c5" (pyLower s) = false := by
      cases hx : pyIn "esp32-c5" (pyLower s) with
      | false => rfl
      | true => exact absurd (pyIn_c5_c hx) (by simp [hc])
    have h5n : pyIn "esp32c5" (pyLower s) = false := by
      cases hx : pyIn "esp32c5" (pyLower s) with
      | false => rfl
      | true => exact absurd (pyIn_c5n_cn hx) (by simp [hcn])
    simp [detect_chip_type, h5, h5n, hc, hcn, h0]

/-- C2 witness: the classification evaluated on concrete tool outputs,
one per branch of the claim. -/
theorem detect_chip_classification_witness :
    detect_chip_type (some "Chip is ESP32-C5 (revision v1.0)") = some DevT.c5 ∧
    detect_chip_type (some "Detecting chip type... ESP32-C3") = none ∧
    detect_chip_type (some "Chip is ESP32-D0WD-V3 (revision v3.1)") = some DevT.wroom ∧
    detect_chip_type none = none :=
  ⟨(detect_chip_classification "Chip is ESP32-C5 (revision v1.0)").1 (by decide),
   (detect_chip_classification "Detecting chip type... ESP32-C3").2.1
     (by decide) (by decide) (by decide),
   (detect_chip_classification "Chip is ESP32-D0WD-V3 (revision v3.1)").2.2.1
     (by decide) (by decide) (by decide),
   (detect_chip_classification "").2.2.2⟩

/-! ### Claim C8 -/

/-- C8 counterexample: when pyserial imports fine but its `comports()`
call itself fails, the exception is NOT caught (the source catches only
`ImportError` on that path), so `list_com_ports` raises to its caller
instead of returning an empty sequence. -/
theorem list_com_ports_can_raise :
    list_com_ports ⟨true, Except.error "comports enumeration failed", PsOutcome.raised ""⟩
      = Except.error "comports enumeration failed" := rfl

/-- C8 (amended): `list_com_ports` propagates an exception exactly when
pyserial imports successfully and its own enumeration raises; in every
other situation — in particular for every failure of the PowerShell
fallback used when pyserial is unavailable — it returns a normal (if
possibly empty) list rather than raising. -/
theorem list_com_ports_fallback_safe (env : EnumEnv) (m : String) :
    list_com_ports env = Except.error m
      ↔ env.pyserialOk = true ∧ env.comports = Except.error m := by
  obtain ⟨pok, comp, ps⟩ := env
  cases pok with
  | true => simp [list_com_ports]
  | false =>
    cases ps with
    | raised msg => simp [list_com_ports]
    | ran rc blank parsed =>
      by_cases hc : (rc = 0 ∧ blank = false) <;> simp [list_com_ports, hc]

/-- C8 witness: a session where pyserial is missing and the PowerShell
fallback times out still yields a normal (empty) result, by the amended
characterisation. -/
theorem list_com_ports_fallback_safe_witness :
    list_com_ports ⟨false, Except.ok [], PsOutcome.raised "powershell timed out"⟩
      ≠ Except.error "powershell timed out" := fun hc =>
  absurd ((list_com_ports_fallback_safe
      ⟨false, Except.ok [], PsOutcome.raised "powershell timed out"⟩
      "powershell timed out").mp hc).1 (by decide)

/-! ### Claims C3 and C6 -/

theorem classifyWriteOutput_not_disconnected (lines : List String) (code : Int) :
    classifyWriteOutput lines code ≠ Except.error FlashErr.disconnected := by
  simp only [classifyWriteOutput]
  split
  · exact fun h => Except.noConfusion h
  · split
    · exact fun h => FlashErr.noConfusion (Except.error.inj h)
    · split
      · exact fun h => FlashErr.noConfusion (Except.error.inj h)
      · split
        · exact fun h => FlashErr.noConfusion (Except.error.inj h)
        · exact fun h => FlashErr.noConfusion (Except.error.inj h)

theorem runWrite_not_disconnected (env : FlashEnv) (b : Bool) :
    (runWrite env b).res ≠ Except.error FlashErr.disconnected := by
  unfold runWrite
  cases env.writeRun with
  | ran lines code => exact classifyWriteOutput_not_disconnected lines code
  | timedOut => exact fun h => FlashErr.noConfusion (Except.error.inj h)
  | raised m => exact fun h => FlashErr.noConfusion (Except.error.inj h)

/-- C3: `flash_device` returns the Disconnected failure exactly when the
port is absent from the fresh enumeration at the verification step
(whatever the tool outcomes in the environment are), and in that case
neither the erase nor the write invocation is attempted. -/
theorem flash_disconnected_iff (device_type : DevT) (port firmware_path : String)
    (erase_first : Bool) (env : FlashEnv) :
    ((flash_device device_type port firmware_path erase_first env).res
        = Except.error FlashErr.disconnected
      ↔ port_exists env.portsAtVerify port = false) ∧
    (port_exists env.portsAtVerify port = false →
      (flash_device device_type port firmware_path erase_first env).eraseRan = false ∧
      (flash_device device_type port firmware_path erase_first env).writeRan = false) := by
  by_cases hp : port_exists env.portsAtVerify port = false
  · simp [flash_device, hp]
  · have hnd : (flash_device device_type port firmware_path erase_first env).res
        ≠ Except.error FlashErr.disconnected := by
      obtain ⟨ports, er, wr⟩ := env
      have hp' : ¬ (port_exists ports port = false) := hp
      cases erase_first with
      | false =>
        simpa [flash_device, hp'] using runWrite_not_disconnected ⟨ports, er, wr⟩ false
      | true =>
        cases er with
        | ran rc =>
          by_cases hrc : rc ≠ 0
          · simp [flash_device, hp', hrc]
          · simpa [flash_device, hp', hrc] using
              runWrite_not_disconnected ⟨ports, EraseOutcome.ran rc, wr⟩ true
        | timedOut => simp [flash_device, hp']
    exact ⟨⟨fun h => absurd h hnd, fun h => absurd h hp⟩, fun h => absurd h hp⟩

/-- C3 witness: with an empty fresh enumeration the call fails as
disconnected and attempts neither tool invocation. -/
theorem flash_disconnected_iff_witness :
    (flash_device DevT.c5 "COM3" "biscuit_c5.bin" true
        ⟨[], EraseOutcome.ran 0, WriteOutcome.ran [] 0⟩).eraseRan = false ∧
    (flash_device DevT.c5 "COM3" "biscuit_c5.bin" true
        ⟨[], EraseOutcome.ran 0, WriteOutcome.ran [] 0⟩).writeRan = false :=
  (flash_disconnected_iff DevT.c5 "COM3" "biscuit_c5.bin" true
    ⟨[], EraseOutcome.ran 0, WriteOutcome.ran [] 0⟩).2 (by decide)

/-- Lowercasing never yields the capital letter P: the source maps every
character of the Basic Latin uppercase range to its lowercase form and
leaves every other character unchanged. -/
theorem toLower_ne_upper_P (c : Char) : Char.toLower c ≠ 'P' := by
  intro h
  simp only [Char.toLower] at h
  split at h
  · rename_i hc
    generalize hn : Char.toNat c = n at h hc
    obtain ⟨h1, h2⟩ := hc
    interval_cases n <;> exact absurd h (by decide)
  · rename_i hc
    subst h
    exact hc (by decide)

/-- No character of a lowercased string is the capital P. -/
theorem pyLower_no_upper_P (s : String) : ∀ c ∈ (pyLower s).data, c ≠ 'P' := by
  intro c hc
  have hc2 : c ∈ s.data.map Char.toLower := hc
  rcases List.mem_map.mp hc2 with ⟨x, hx, rfl⟩
  exact toLower_ne_upper_P x

/-- A needle starting with the capital P never occurs in a haystack that
contains no capital P. -/
theorem subMatch_cons_P_false {rest hay : List Char} (hh : ∀ c ∈ hay, c ≠ 'P') :
    subMatch ('P' :: rest) hay = false := by
  induction hay with
  | nil => rfl
  | cons b bs ih =>
    have hb : ('P' == b) = false := by
      have hbP := hh b (List.mem_cons_self b bs)
      exact beq_eq_false_iff_ne.mpr (fun hq => hbP hq.symm)
    simp [subMatch, headMatch, hb,
      ih (fun c hc => hh c (List.mem_cons_of_mem _ hc))]

/-- The source's permission condition is dead: searching the
capitalised needle inside `output.lower()` can never succeed. -/
theorem pyIn_Permission_pyLower (s : String) :
    pyIn "Permission" (pyLower s) = false := by
  have hneedle : ("Permission".data : List Char) = 'P' :: "ermission".data := by decide
  unfold pyIn
  rw [hneedle]
  exact subMatch_cons_P_false (pyLower_no_upper_P s)

/-- The `portBusy` branch of the write classification is unreachable. -/
theorem classifyWriteOutput_portBusy_dead (lines : List String) (code : Int) :
    classifyWriteOutput lines code ≠ Except.error FlashErr.portBusy := by
  simp only [classifyWriteOutput]
  rw [pyIn_Permission_pyLower]
  split
  · exact fun h => Except.noConfusion h
  · split
    · exact fun h => FlashErr.noConfusion (Except.error.inj h)
    · split
      · exact fun h => FlashErr.noConfusion (Except.error.inj h)
      · simp

theorem runWrite_portBusy_dead (env : FlashEnv) (b : Bool) :
    (runWrite env b).res ≠ Except.error FlashErr.portBusy := by
  unfold runWrite
  cases env.writeRun with
  | ran lines code => exact classifyWriteOutput_portBusy_dead lines code
  | timedOut => exact fun h => FlashErr.noConfusion (Except.error.inj h)
  | raised m => exact fun h => FlashErr.noConfusion (Except.error.inj h)

/-- No call of `flash_device` whatsoever returns the PortBusy failure. -/
theorem flash_device_portBusy_dead (device_type : DevT) (port firmware_path : String)
    (erase_first : Bool) (env : FlashEnv) :
    (flash_device device_type port firmware_path erase_first env).res
      ≠ Except.error FlashErr.portBusy := by
  obtain ⟨ports, er, wr⟩ := env
  by_cases hp : port_exists ports port = false
  · simp [flash_device, hp]
  · cases erase_first with
    | false =>
      simpa [flash_device, hp] using runWrite_portBusy_dead ⟨ports, er, wr⟩ false
    | true =>
      cases er with
      | ran rc =>
        by_cases hrc : rc ≠ 0
        · simp [flash_device, hp, hrc]
        · simpa [flash_device, hp, hrc] using
            runWrite_portBusy_dead ⟨ports, EraseOutcome.ran rc, wr⟩ true
      | timedOut => simp [flash_device, hp]

/-- C6 (code bug): the claimed PortBusy classification never happens.
The source tests `"Permission" in output.lower()` — a needle with a
capital `P` searched in the lowercased output — so its PortBusy branch
is dead.  At this concrete attempt (port present, no erase requested,
write exiting 2 with a permission-denied line in its captured output
and neither a connect nor a timeout marker) the claim says the result
is PortBusy, but the program returns the UnknownFailure fallback
carrying the exit code. -/
theorem flash_permission_marker_misclassified :
    pyIn "permission"
        (pyLower (String.intercalate "\n"
          ["esptool.py v4.7.0", "Serial port COM3",
            "serial.serialutil.SerialException: Permission denied: COM3"])) = true ∧
    pyIn "Failed to connect"
        (String.intercalate "\n"
          ["esptool.py v4.7.0", "Serial port COM3",
            "serial.serialutil.SerialException: Permission denied: COM3"]) = false ∧
    pyIn "Timed out"
        (String.intercalate "\n"
          ["esptool.py v4.7.0", "Serial port COM3",
            "serial.serialutil.SerialException: Permission denied: COM3"]) = false ∧
    (flash_device DevT.wroom "COM3" "biscuit_wroom.bin" false
        ⟨[⟨"COM3", ""⟩], EraseOutcome.ran 0,
          WriteOutcome.ran
            ["esptool.py v4.7.0", "Serial port COM3",
              "serial.serialutil.SerialException: Permission denied: COM3"] 2⟩).res
      = Except.error (FlashErr.unknownFailure 2) :=
  ⟨rfl, rfl, rfl, rfl⟩

/-! ### Claim C9 -/

/-- C9: an empty operator response (after strip/lower) maps to each call
site's designated default: `retry` for the retry menu — unconditionally,
the redundant second comparison in its condition notwithstanding — and
`rescan` for the no-devices and disconnect prompts. -/
theorem prompt_empty_defaults (raw : String) (rest : List String)
    (h : pyLower (pyStrip raw) = "") :
    prompt_retry (raw :: rest) = (RetryAction.retry, rest) ∧
    prompt_no_devices (raw :: rest) = (RescanAction.rescan, rest) ∧
    prompt_disconnect (raw :: rest) = (RescanAction.rescan, rest) := by
  refine ⟨?_, ?_, ?_⟩
  · rw [prompt_retry]
    simp [parseRetryChoice, h]
  · rw [prompt_no_devices]
    simp [parseRescanChoice, h]
  · rw [prompt_disconnect]
    simp [parseRescanChoice, h]

/-- C9 witness: the three prompts evaluated on a whitespace-only input
line. -/
theorem prompt_empty_defaults_witness :
    prompt_retry ["  ", "q"] = (RetryAction.retry, ["q"]) ∧
    prompt_no_devices ["  ", "q"] = (RescanAction.rescan, ["q"]) ∧
    prompt_disconnect ["  ", "q"] = (RescanAction.rescan, ["q"]) :=
  prompt_empty_defaults "  " ["q"] (by decide)

/-! ### Trace predicate algebra -/

theorem isAttemptEv_false_of_dev {dt : DevT} {e : Ev} (h : Ev.dev e ≠ dt) :
    isAttemptEv dt e = false := by
  cases e with
  | attempt d p ef =>
    simp only [Ev.dev] at h
    simp [isAttemptEv, h]
  | seqStart d => rfl
  | setResult d b => rfl
  | chose d a => rfl
  | discChoice d a => rfl

theorem isSetEv_false_of_dev {dt : DevT} {e : Ev} (h : Ev.dev e ≠ dt) :
    isSetEv dt e = false := by
  cases e with
  | setResult d b =>
    simp only [Ev.dev] at h
    simp [isSetEv, h]
  | seqStart d => rfl
  | attempt d p ef => rfl
  | chose d a => rfl
  | discChoice d a => rfl

theorem terminalOnce_append (dt : DevT) (s : Bool) (xs ys : List Ev) :
    terminalOnce dt s (xs ++ ys)
      = (terminalOnce dt s xs && terminalOnce dt (s || hasSet dt xs) ys) := by
  induction xs generalizing s with
  | nil => simp [terminalOnce, hasSet]
  | cons e xs ih =>
    simp only [List.cons_append, terminalOnce, hasSet, List.any_cons, List.append_eq]
    rw [ih]
    simp [hasSet, Bool.and_assoc, Bool.or_assoc]

theorem terminalOnce_alien {dt : DevT} {tr : List Ev}
    (h : ∀ e ∈ tr, Ev.dev e ≠ dt) : ∀ s, terminalOnce dt s tr = true := by
  induction tr with
  | nil => intro s; rfl
  | cons e tr ih =>
    intro s
    have ha := isAttemptEv_false_of_dev (h e (List.mem_cons_self e tr))
    have hs := isSetEv_false_of_dev (h e (List.mem_cons_self e tr))
    simp [terminalOnce, ha, hs, ih (fun x hx => h x (List.mem_cons_of_mem _ hx)) s]

theorem hasSet_alien {dt : DevT} {tr : List Ev}
    (h : ∀ e ∈ tr, Ev.dev e ≠ dt) : hasSet dt tr = false := by
  induction tr with
  | nil => rfl
  | cons e tr ih =>
    have hs := isSetEv_false_of_dev (h e (List.mem_cons_self e tr))
    simp [hasSet, hs]
    have := ih (fun x hx => h x (List.mem_cons_of_mem _ hx))
    simpa [hasSet] using this

theorem eraseDiscipline_append (dt : DevT) (prev : Option Ev) (xs ys : List Ev) :
    eraseDiscipline dt prev (xs ++ ys)
      = (eraseDiscipline dt prev xs && eraseDiscipline dt (lastOr prev xs) ys) := by
  induction xs generalizing prev with
  | nil => simp [eraseDiscipline, lastOr]
  | cons e xs ih =>
    simp only [List.cons_append, eraseDiscipline, lastOr, List.append_eq]
    rw [ih]
    simp [Bool.and_assoc]

theorem eraseDiscipline_alien {dt : DevT} {tr : List Ev}
    (h : ∀ e ∈ tr, Ev.dev e ≠ dt) : ∀ prev, eraseDiscipline dt prev tr = true := by
  induction tr with
  | nil => intro prev; rfl
  | cons e tr ih =>
    intro prev
    have hrest := ih (fun x hx => h x (List.mem_cons_of_mem _ hx)) (some e)
    cases e with
    | attempt d p ef =>
      have hd : d ≠ dt := by
        have := h (Ev.attempt d p ef) (List.mem_cons_self _ _)
        simpa [Ev.dev] using this
      simp [eraseDiscipline, hd, hrest]
    | seqStart d => simp [eraseDiscipline, hrest]
    | setResult d b => simp [eraseDiscipline, hrest]
    | chose d a => simp [eraseDiscipline, hrest]
    | discChoice d a => simp [eraseDiscipline, hrest]

/-! ### Facts about the per-device retry loop -/

theorem deviceLoop_facts (dt : DevT) (port : String) (fuel : Nat) :
    ∀ (ef : Bool) (stdin : List String) (att : List AttemptEnv),
      (∀ e ∈ (deviceLoop dt port fuel ef stdin att).trace, Ev.dev e = dt) ∧
      terminalOnce dt false (deviceLoop dt port fuel ef stdin att).trace = true ∧
      (hasSet dt (deviceLoop dt port fuel ef stdin att).trace = true →
        (deviceLoop dt port fuel ef stdin att).exit = some LoopExit.flashed ∨
        (deviceLoop dt port fuel ef stdin att).exit = some LoopExit.skipped) ∧
      (∀ prev, prevAllows dt ef prev = true →
        eraseDiscipline dt prev (deviceLoop dt port fuel ef stdin att).trace = true) := by
  induction fuel with
  | zero =>
    intro ef stdin att
    refine ⟨?_, rfl, ?_, ?_⟩
    · intro e he
      simp [deviceLoop] at he
    · intro h
      simp [deviceLoop, hasSet] at h
    · intro prev hp
      rfl
  | succ fuel ih =>
    intro ef stdin att
    cases att with
    | nil =>
      refine ⟨?_, rfl, ?_, ?_⟩
      · intro e he
        simp [deviceLoop] at he
      · intro h
        simp [deviceLoop, hasSet] at h
      · intro prev hp
        rfl
    | cons aenv restA =>
      by_cases hok : aenv.flashOk = true
      · refine ⟨?_, ?_, ?_, ?_⟩
        · intro e he
          simp [deviceLoop, hok] at he
          rcases he with rfl | rfl <;> rfl
        · simp [deviceLoop, hok, terminalOnce, isAttemptEv, isSetEv]
        · intro _
          simp [deviceLoop, hok]
        · intro prev hp
          simp [deviceLoop, hok, eraseDiscipline, hp]
      · by_cases hpa : aenv.portAfter = true
        · rcases hpr : prompt_retry stdin with ⟨ra, rrest⟩
          cases ra with
          | retry =>
            rcases hd : deviceLoop dt port fuel false rrest restA with ⟨ex1, s1, a1, tr1⟩
            have IH := ih false rrest restA
            rw [hd] at IH
            simp only at IH
            refine ⟨?_, ?_, ?_, ?_⟩
            · intro e he
              simp [deviceLoop, hok, hpa, hpr, hd] at he
              rcases he with rfl | rfl | he
              · rfl
              · rfl
              · exact IH.1 e he
            · simp [deviceLoop, hok, hpa, hpr, hd, terminalOnce, isAttemptEv, isSetEv,
                IH.2.1]
            · intro h
              simp only [deviceLoop, hok, hpa, hpr, hd] at h ⊢
              simp only [hasSet, List.any_cons, isSetEv, Bool.false_or] at h
              exact IH.2.2.1 h
            · intro prev hp
              simp only [deviceLoop, hok, hpa, hpr, hd]
              have hnext : eraseDiscipline dt (some (Ev.chose dt RetryAction.retry)) tr1 = true :=
                IH.2.2.2 _ (by simp [prevAllows, choiceErase])
              simp [eraseDiscipline, hp, hnext]
          | erase =>
            rcases hd : deviceLoop dt port fuel true rrest restA with ⟨ex1, s1, a1, tr1⟩
            have IH := ih true rrest restA
            rw [hd] at IH
            simp only at IH
            refine ⟨?_, ?_, ?_, ?_⟩
            · intro e he
              simp [deviceLoop, hok, hpa, hpr, hd] at he
              rcases he with rfl | rfl | he
              · rfl
              · rfl
              · exact IH.1 e he
            · simp [deviceLoop, hok, hpa, hpr, hd, terminalOnce, isAttemptEv, isSetEv,
                IH.2.1]
            · intro h
              simp only [deviceLoop, hok, hpa, hpr, hd] at h ⊢
              simp only [hasSet, List.any_cons, isSetEv, Bool.false_or] at h
              exact IH.2.2.1 h
            · intro prev hp
              simp only [deviceLoop, hok, hpa, hpr, hd]
              have hnext : eraseDiscipline dt (some (Ev.chose dt RetryAction.erase)) tr1 = true :=
                IH.2.2.2 _ (by simp [prevAllows, choiceErase])
              simp [eraseDiscipline, hp, hnext]
          | skip =>
            refine ⟨?_, ?_, ?_, ?_⟩
            · intro e he
              simp [deviceLoop, hok, hpa, hpr] at he
              rcases he with rfl | rfl | rfl <;> rfl
            · simp [deviceLoop, hok, hpa, hpr, terminalOnce, isAttemptEv, isSetEv]
            · intro _
              simp [deviceLoop, hok, hpa, hpr]
            · intro prev hp
              simp [deviceLoop, hok, hpa, hpr, eraseDiscipline, hp]
          | rescan =>
            refine ⟨?_, ?_, ?_, ?_⟩
            · intro e he
              simp [deviceLoop, hok, hpa, hpr] at he
              rcases he with rfl | rfl <;> rfl
            · simp [deviceLoop, hok, hpa, hpr, terminalOnce, isAttemptEv, isSetEv]
            · intro h
              simp [deviceLoop, hok, hpa, hpr, hasSet, isSetEv] at h
            · intro prev hp
              simp [deviceLoop, hok, hpa, hpr, eraseDiscipline, hp]
          | quit =>
            refine ⟨?_, ?_, ?_, ?_⟩
            · intro e he
              simp [deviceLoop, hok, hpa, hpr] at he
              rcases he with rfl | rfl <;> rfl
            · simp [deviceLoop, hok, hpa, hpr, terminalOnce, isAttemptEv, isSetEv]
            · intro h
              simp [deviceLoop, hok, hpa, hpr, hasSet, isSetEv] at h
            · intro prev hp
              simp [deviceLoop, hok, hpa, hpr, eraseDiscipline, hp]
        · rcases hpd : prompt_disconnect stdin with ⟨da, drest⟩
          cases da with
          | rescan =>
            refine ⟨?_, ?_, ?_, ?_⟩
            · intro e he
              simp [deviceLoop, hok, hpa, hpd] at he
              rcases he with rfl | rfl <;> rfl
            · simp [deviceLoop, hok, hpa, hpd, terminalOnce, isAttemptEv, isSetEv]
            · intro h
              simp [deviceLoop, hok, hpa, hpd, hasSet, isSetEv] at h
            · intro prev hp
              simp [deviceLoop, hok, hpa, hpd, eraseDiscipline, hp]
          | quit =>
            refine ⟨?_, ?_, ?_, ?_⟩
            · intro e he
              simp [deviceLoop, hok, hpa, hpd] at he
              rcases he with rfl | rfl <;> rfl
            · simp [deviceLoop, hok, hpa, hpd, terminalOnce, isAttemptEv, isSetEv]
            · intro h
              simp [deviceLoop, hok, hpa, hpd, hasSet, isSetEv] at h
            · intro prev hp
              simp [deviceLoop, hok, hpa, hpd, eraseDiscipline, hp]

/-! ### Facts about one per-device section of the outer loop -/

theorem runSection_skip (dt : DevT) (fuel : Nat) (portOpt : Option String) (b : Bool)
    (stdin : List String) (att : List AttemptEnv) :
    runSection dt fuel portOpt (some b) stdin att
      = ⟨SectionRes.proceed (some b), stdin, att, []⟩ := by
  cases portOpt <;> rfl

theorem runSection_facts (dt : DevT) (fuel : Nat) (portOpt : Option String)
    (cur : Option Bool) (stdin : List String) (att : List AttemptEnv) :
    (∀ e ∈ (runSection dt fuel portOpt cur stdin att).trace, Ev.dev e = dt) ∧
    terminalOnce dt false (runSection dt fuel portOpt cur stdin att).trace = true ∧
    (hasSet dt (runSection dt fuel portOpt cur stdin att).trace = true →
      (runSection dt fuel portOpt cur stdin att).res = SectionRes.proceed (some true) ∨
      (runSection dt fuel portOpt cur stdin att).res = SectionRes.proceed (some false)) ∧
    (∀ prev, eraseDiscipline dt prev (runSection dt fuel portOpt cur stdin att).trace = true) := by
  cases portOpt with
  | none =>
    refine ⟨?_, rfl, ?_, ?_⟩
    · intro e he
      simp [runSection] at he
    · intro h
      simp [runSection, hasSet] at h
    · intro prev
      rfl
  | some port =>
    cases cur with
    | some b =>
      rw [runSection_skip]
      refine ⟨?_, rfl, ?_, ?_⟩
      · intro e he
        simp at he
      · intro h
        simp [hasSet] at h
      · intro prev
        rfl
    | none =>
      by_cases hpe : port.isEmpty = true
      · refine ⟨?_, ?_, ?_, ?_⟩
        · intro e he
          simp [runSection, hpe] at he
        · simp [runSection, hpe]
          rfl
        · intro h
          simp [runSection, hpe, hasSet] at h
        · intro prev
          simp [runSection, hpe]
          rfl
      · rcases hd : deviceLoop dt port fuel false stdin att with ⟨ex1, s1, a1, tr1⟩
        have DF := deviceLoop_facts dt port fuel false stdin att
        rw [hd] at DF
        simp only at DF
        have h1 : ∀ e ∈ (Ev.seqStart dt :: tr1), Ev.dev e = dt := by
          intro e he
          rcases List.mem_cons.mp he with rfl | he
          · rfl
          · exact DF.1 e he
        have h2 : terminalOnce dt false (Ev.seqStart dt :: tr1) = true := by
          simp [terminalOnce, isSetEv, isAttemptEv, DF.2.1]
        have h4 : ∀ prev, eraseDiscipline dt prev (Ev.seqStart dt :: tr1) = true := by
          intro prev
          have hnext : eraseDiscipline dt (some (Ev.seqStart dt)) tr1 = true :=
            DF.2.2.2 _ (by simp [prevAllows])
          simp [eraseDiscipline, hnext]
        have hset : hasSet dt (Ev.seqStart dt :: tr1) = hasSet dt tr1 := by
          simp [hasSet, isSetEv]
        cases ex1 with
        | none =>
          have hrs : runSection dt fuel (some port) none stdin att
              = ⟨SectionRes.fuelOut, s1, a1, Ev.seqStart dt :: tr1⟩ := by
            simp [runSection, hpe, hd]
          rw [hrs]
          refine ⟨h1, h2, ?_, h4⟩
          intro h
          have h' : hasSet dt (Ev.seqStart dt :: tr1) = true := h
          rw [hset] at h'
          rcases DF.2.2.1 h' with hc | hc <;> simp at hc
        | some lex =>
          cases lex with
          | flashed =>
            have hrs : runSection dt fuel (some port) none stdin att
                = ⟨SectionRes.proceed (some true), s1, a1, Ev.seqStart dt :: tr1⟩ := by
              simp [runSection, hpe, hd]
            rw [hrs]
            exact ⟨h1, h2, fun _ => Or.inl rfl, h4⟩
          | skipped =>
            have hrs : runSection dt fuel (some port) none stdin att
                = ⟨SectionRes.proceed (some false), s1, a1, Ev.seqStart dt :: tr1⟩ := by
              simp [runSection, hpe, hd]
            rw [hrs]
            exact ⟨h1, h2, fun _ => Or.inr rfl, h4⟩
          | toRescan =>
            have hrs : runSection dt fuel (some port) none stdin att
                = ⟨SectionRes.proceed none, s1, a1, Ev.seqStart dt :: tr1⟩ := by
              simp [runSection, hpe, hd]
            rw [hrs]
            refine ⟨h1, h2, ?_, h4⟩
            intro h
            have h' : hasSet dt (Ev.seqStart dt :: tr1) = true := h
            rw [hset] at h'
            rcases DF.2.2.1 h' with hc | hc <;> simp at hc
          | quitProg =>
            have hrs : runSection dt fuel (some port) none stdin att
                = ⟨SectionRes.quitNow, s1, a1, Ev.seqStart dt :: tr1⟩ := by
              simp [runSection, hpe, hd]
            rw [hrs]
            refine ⟨h1, h2, ?_, h4⟩
            intro h
            have h' : hasSet dt (Ev.seqStart dt :: tr1) = true := h
            rw [hset] at h'
            rcases DF.2.2.1 h' with hc | hc <;> simp at hc

/-! ### Facts about the session loop -/

theorem runSection_of_terminal (dt : DevT) (fuel : Nat) (portOpt : Option String) (b : Bool)
    (stdin : List String) (att : List AttemptEnv) {res : SectionRes} {s' : List String}
    {a' : List AttemptEnv} {tr : List Ev}
    (h : runSection dt fuel portOpt (some b) stdin att = ⟨res, s', a', tr⟩) :
    res = SectionRes.proceed (some b) ∧ tr = [] ∧ s' = stdin ∧ a' = att := by
  rw [runSection_skip] at h
  simp only [SecOut.mk.injEq] at h
  exact ⟨h.1.symm, h.2.2.2.symm, h.2.1.symm, h.2.2.1.symm⟩

theorem hasSet_append (dt : DevT) (xs ys : List Ev) :
    hasSet dt (xs ++ ys) = (hasSet dt xs || hasSet dt ys) := by
  simp [hasSet, List.any_append]

theorem terminalOnce_append_of (dt : DevT) {s : Bool} {xs ys : List Ev}
    (hx : terminalOnce dt s xs = true)
    (hy : terminalOnce dt (s || hasSet dt xs) ys = true) :
    terminalOnce dt s (xs ++ ys) = true := by
  rw [terminalOnce_append, hx, hy]
  rfl

theorem eraseDiscipline_append_of (dt : DevT) {prev : Option Ev} {xs ys : List Ev}
    (hx : eraseDiscipline dt prev xs = true)
    (hy : eraseDiscipline dt (lastOr prev xs) ys = true) :
    eraseDiscipline dt prev (xs ++ ys) = true := by
  rw [eraseDiscipline_append, hx, hy]
  rfl

theorem mainLoop_facts (toolOut : String → Option String) (fuel : Nat) :
    ∀ (r : Results) (scans : List (List PortInfo)) (stdin : List String)
      (att : List AttemptEnv) (dt : DevT),
      terminalOnce dt false (mainLoop toolOut fuel r scans stdin att).trace = true ∧
      (∀ b : Bool, getRes r dt = some b →
        (∀ e ∈ (mainLoop toolOut fuel r scans stdin att).trace, Ev.dev e ≠ dt) ∧
        (∀ out, (mainLoop toolOut fuel r scans stdin att).exit = some out →
          getRes (exitResults out) dt = some b)) ∧
      (∀ prev, eraseDiscipline dt prev (mainLoop toolOut fuel r scans stdin att).trace = true) := by
  induction fuel with
  | zero =>
    intro r scans stdin att dt
    refine ⟨rfl, ?_, fun prev => rfl⟩
    intro b hb
    constructor
    · intro e he
      simp [mainLoop] at he
    · intro out hout
      simp [mainLoop] at hout
  | succ fuel ih =>
    intro r scans stdin att dt
    cases scans with
    | nil =>
      refine ⟨rfl, ?_, fun prev => rfl⟩
      intro b hb
      constructor
      · intro e he
        simp [mainLoop] at he
      · intro out hout
        simp [mainLoop] at hout
    | cons ports scansR =>
      by_cases hearly :
          (pyTruthy (scan_for_devices toolOut ports).1.c5
            || pyTruthy (scan_for_devices toolOut ports).1.wroom) = false
      · rcases hnd : prompt_no_devices stdin with ⟨na, nrest⟩
        cases na with
        | quit =>
          have hML : mainLoop toolOut (fuel + 1) r (ports :: scansR) stdin att
              = ⟨some (SessionExit.quitEarly r), []⟩ := by
            simp [mainLoop, hearly, hnd]
          rw [hML]
          refine ⟨rfl, ?_, fun prev => rfl⟩
          intro b hb
          constructor
          · intro e he
            simp at he
          · intro out hout
            have h' := Option.some.inj hout
            subst h'
            exact hb
        | rescan =>
          have hML : mainLoop toolOut (fuel + 1) r (ports :: scansR) stdin att
              = mainLoop toolOut fuel r scansR nrest att := by
            simp [mainLoop, hearly, hnd]
          rw [hML]
          exact ih r scansR nrest att dt
      · rcases hS1 : runSection DevT.c5 fuel (scan_for_devices toolOut ports).1.c5 r.c5
            stdin att with ⟨res1, s1, a1, tr1⟩
        have SF1 := runSection_facts DevT.c5 fuel (scan_for_devices toolOut ports).1.c5 r.c5
          stdin att
        rw [hS1] at SF1
        simp only at SF1
        have halien1w : ∀ e ∈ tr1, Ev.dev e ≠ DevT.wroom := by
          intro e he
          rw [SF1.1 e he]
          decide
        cases res1 with
        | quitNow =>
          have hML : mainLoop toolOut (fuel + 1) r (ports :: scansR) stdin att
              = ⟨some (SessionExit.quitEarly r), tr1⟩ := by
            simp [mainLoop, hearly, hS1]
          rw [hML]
          refine ⟨?_, ?_, ?_⟩
          · cases dt with
            | c5 => exact SF1.2.1
            | wroom => exact terminalOnce_alien halien1w false
          · intro b hb
            cases dt with
            | c5 =>
              have hb' : r.c5 = some b := hb
              have hsk := runSection_of_terminal DevT.c5 fuel
                (scan_for_devices toolOut ports).1.c5 b stdin att (hb' ▸ hS1)
              simp at hsk
            | wroom =>
              constructor
              · exact halien1w
              · intro out hout
                have h' := Option.some.inj hout
                subst h'
                exact hb
          · intro prev
            cases dt with
            | c5 => exact SF1.2.2.2 prev
            | wroom => exact eraseDiscipline_alien halien1w prev
        | fuelOut =>
          have hML : mainLoop toolOut (fuel + 1) r (ports :: scansR) stdin att
              = ⟨none, tr1⟩ := by
            simp [mainLoop, hearly, hS1]
          rw [hML]
          refine ⟨?_, ?_, ?_⟩
          · cases dt with
            | c5 => exact SF1.2.1
            | wroom => exact terminalOnce_alien halien1w false
          · intro b hb
            cases dt with
            | c5 =>
              have hb' : r.c5 = some b := hb
              have hsk := runSection_of_terminal DevT.c5 fuel
                (scan_for_devices toolOut ports).1.c5 b stdin att (hb' ▸ hS1)
              simp at hsk
            | wroom =>
              constructor
              · exact halien1w
              · intro out hout
                simp at hout
          · intro prev
            cases dt with
            | c5 => exact SF1.2.2.2 prev
            | wroom => exact eraseDiscipline_alien halien1w prev
        | proceed rc5 =>
          rcases hS2 : runSection DevT.wroom fuel (scan_for_devices toolOut ports).1.wroom
              r.wroom s1 a1 with ⟨res2, s2, a2, tr2⟩
          have SF2 := runSection_facts DevT.wroom fuel
            (scan_for_devices toolOut ports).1.wroom r.wroom s1 a1
          rw [hS2] at SF2
          simp only at SF2
          have halien2c : ∀ e ∈ tr2, Ev.dev e ≠ DevT.c5 := by
            intro e he
            rw [SF2.1 e he]
            decide
          have hskip1 : ∀ b : Bool, r.c5 = some b →
              SectionRes.proceed rc5 = SectionRes.proceed (some b) ∧ tr1 = [] ∧
              s1 = stdin ∧ a1 = att := by
            intro b hb
            exact runSection_of_terminal DevT.c5 fuel
              (scan_for_devices toolOut ports).1.c5 b stdin att (hb ▸ hS1)
          cases res2 with
          | quitNow =>
            have hML : mainLoop toolOut (fuel + 1) r (ports :: scansR) stdin att
                = ⟨some (SessionExit.quitEarly ⟨rc5, r.wroom⟩), tr1 ++ tr2⟩ := by
              simp [mainLoop, hearly, hS1, hS2]
            rw [hML]
            refine ⟨?_, ?_, ?_⟩
            · cases dt with
              | c5 =>
                exact terminalOnce_append_of _ SF1.2.1 (terminalOnce_alien halien2c _)
              | wroom =>
                refine terminalOnce_append_of _ (terminalOnce_alien halien1w false) ?_
                rw [hasSet_alien halien1w]
                simpa using SF2.2.1
            · intro b hb
              cases dt with
              | c5 =>
                have hb' : r.c5 = some b := hb
                obtain ⟨hres, htr1, hs1e, ha1e⟩ := hskip1 b hb'
                have hrc5 : rc5 = some b := by
                  simpa using hres
                subst htr1
                constructor
                · intro e he
                  simp only [List.nil_append] at he
                  exact halien2c e he
                · intro out hout
                  have h' := Option.some.inj hout
                  subst h'
                  simpa [exitResults, getRes] using hrc5
              | wroom =>
                have hb' : r.wroom = some b := hb
                have hsk := runSection_of_terminal DevT.wroom fuel
                  (scan_for_devices toolOut ports).1.wroom b s1 a1 (hb' ▸ hS2)
                simp at hsk
            · intro prev
              cases dt with
              | c5 =>
                exact eraseDiscipline_append_of _ (SF1.2.2.2 prev)
                  (eraseDiscipline_alien halien2c _)
              | wroom =>
                exact eraseDiscipline_append_of _ (eraseDiscipline_alien halien1w prev)
                  (SF2.2.2.2 _)
          | fuelOut =>
            have hML : mainLoop toolOut (fuel + 1) r (ports :: scansR) stdin att
                = ⟨none, tr1 ++ tr2⟩ := by
              simp [mainLoop, hearly, hS1, hS2]
            rw [hML]
            refine ⟨?_, ?_, ?_⟩
            · cases dt with
              | c5 =>
                exact terminalOnce_append_of _ SF1.2.1 (terminalOnce_alien halien2c _)
              | wroom =>
                refine terminalOnce_append_of _ (terminalOnce_alien halien1w false) ?_
                rw [hasSet_alien halien1w]
                simpa using SF2.2.1
            · intro b hb
              cases dt with
              | c5 =>
                have hb' : r.c5 = some b := hb
                obtain ⟨hres, htr1, hs1e, ha1e⟩ := hskip1 b hb'
                subst htr1
                constructor
                · intro e he
                  simp only [List.nil_append] at he
                  exact halien2c e he
                · intro out hout
                  simp at hout
              | wroom =>
                have hb' : r.wroom = some b := hb
                have hsk := runSection_of_terminal DevT.wroom fuel
                  (scan_for_devices toolOut ports).1.wroom b s1 a1 (hb' ▸ hS2)
                simp at hsk
            · intro prev
              cases dt with
              | c5 =>
                exact eraseDiscipline_append_of _ (SF1.2.2.2 prev)
                  (eraseDiscipline_alien halien2c _)
              | wroom =>
                exact eraseDiscipline_append_of _ (eraseDiscipline_alien halien1w prev)
                  (SF2.2.2.2 _)
          | proceed rw2 =>
            have hskip2 : ∀ b : Bool, r.wroom = some b →
                SectionRes.proceed rw2 = SectionRes.proceed (some b) ∧ tr2 = [] ∧
                s2 = s1 ∧ a2 = a1 := by
              intro b hb
              exact runSection_of_terminal DevT.wroom fuel
                (scan_for_devices toolOut ports).1.wroom b s1 a1 (hb ▸ hS2)
            have hTERM : terminalOnce dt false (tr1 ++ tr2) = true := by
              cases dt with
              | c5 =>
                exact terminalOnce_append_of _ SF1.2.1 (terminalOnce_alien halien2c _)
              | wroom =>
                refine terminalOnce_append_of _ (terminalOnce_alien halien1w false) ?_
                rw [hasSet_alien halien1w]
                simpa using SF2.2.1
            have hED : ∀ prev, eraseDiscipline dt prev (tr1 ++ tr2) = true := by
              intro prev
              cases dt with
              | c5 =>
                exact eraseDiscipline_append_of _ (SF1.2.2.2 prev)
                  (eraseDiscipline_alien halien2c _)
              | wroom =>
                exact eraseDiscipline_append_of _ (eraseDiscipline_alien halien1w prev)
                  (SF2.2.2.2 _)
            have hPRES : ∀ b : Bool, getRes r dt = some b →
                (∀ e ∈ tr1 ++ tr2, Ev.dev e ≠ dt) ∧
                getRes ⟨rc5, rw2⟩ dt = some b := by
              intro b hb
              cases dt with
              | c5 =>
                have hb' : r.c5 = some b := hb
                obtain ⟨hres, htr1, hs1e, ha1e⟩ := hskip1 b hb'
                have hrc5 : rc5 = some b := by
                  simpa using hres
                subst htr1
                constructor
                · intro e he
                  simp only [List.nil_append] at he
                  exact halien2c e he
                · simpa [getRes] using hrc5
              | wroom =>
                have hb' : r.wroom = some b := hb
                obtain ⟨hres, htr2, hs2e, ha2e⟩ := hskip2 b hb'
                have hrw2 : rw2 = some b := by
                  simpa using hres
                subst htr2
                constructor
                · intro e he
                  simp only [List.append_nil] at he
                  exact halien1w e he
                · simpa [getRes] using hrw2
            have hseen1 : hasSet DevT.c5 tr1 = true → ∃ b', rc5 = some b' := by
              intro hs
              rcases SF1.2.2.1 hs with h | h
              · exact ⟨true, by simpa using h⟩
              · exact ⟨false, by simpa using h⟩
            have hseen2 : hasSet DevT.wroom tr2 = true → ∃ b', rw2 = some b' := by
              intro hs
              rcases SF2.2.2.1 hs with h | h
              · exact ⟨true, by simpa using h⟩
              · exact ⟨false, by simpa using h⟩
            have hFIN : terminalOnce dt false (tr1 ++ tr2) = true ∧
                (∀ b : Bool, getRes r dt = some b →
                  (∀ e ∈ tr1 ++ tr2, Ev.dev e ≠ dt) ∧
                  (∀ out, (some (SessionExit.finished ⟨rc5, rw2⟩) : Option SessionExit)
                      = some out → getRes (exitResults out) dt = some b)) ∧
                (∀ prev, eraseDiscipline dt prev (tr1 ++ tr2) = true) := by
              refine ⟨hTERM, ?_, hED⟩
              intro b hb
              refine ⟨(hPRES b hb).1, ?_⟩
              intro out hout
              have h' := Option.some.inj hout
              subst h'
              exact (hPRES b hb).2
            have hRECUR : ∀ (stdin' : List String),
                terminalOnce dt false
                  (tr1 ++ tr2 ++ (mainLoop toolOut fuel ⟨rc5, rw2⟩ scansR stdin' a2).trace)
                  = true ∧
                (∀ b : Bool, getRes r dt = some b →
                  (∀ e ∈ tr1 ++ tr2 ++ (mainLoop toolOut fuel ⟨rc5, rw2⟩ scansR
                      stdin' a2).trace, Ev.dev e ≠ dt) ∧
                  (∀ out, (mainLoop toolOut fuel ⟨rc5, rw2⟩ scansR stdin' a2).exit
                      = some out → getRes (exitResults out) dt = some b)) ∧
                (∀ prev, eraseDiscipline dt prev
                  (tr1 ++ tr2 ++ (mainLoop toolOut fuel ⟨rc5, rw2⟩ scansR stdin'
                    a2).trace) = true) := by
              intro stdin'
              have IH3 := ih ⟨rc5, rw2⟩ scansR stdin' a2 dt
              have IH3c5 := ih ⟨rc5, rw2⟩ scansR stdin' a2 DevT.c5
              have IH3w := ih ⟨rc5, rw2⟩ scansR stdin' a2 DevT.wroom
              refine ⟨?_, ?_, ?_⟩
              · refine terminalOnce_append_of _ hTERM ?_
                cases dt with
                | c5 =>
                  rw [hasSet_append, hasSet_alien halien2c, Bool.or_false]
                  cases hs1 : hasSet DevT.c5 tr1 with
                  | false =>
                    simpa using IH3c5.1
                  | true =>
                    obtain ⟨b', hb'⟩ := hseen1 hs1
                    have halien3 := (IH3c5.2.1 b' (by simpa [getRes] using hb')).1
                    exact terminalOnce_alien halien3 _
                | wroom =>
                  rw [hasSet_append, hasSet_alien halien1w, Bool.false_or]
                  cases hs2 : hasSet DevT.wroom tr2 with
                  | false =>
                    simpa using IH3w.1
                  | true =>
                    obtain ⟨b', hb'⟩ := hseen2 hs2
                    have halien3 := (IH3w.2.1 b' (by simpa [getRes] using hb')).1
                    exact terminalOnce_alien halien3 _
              · intro b hb
                have hcarry := (hPRES b hb).2
                have halien3 := (IH3.2.1 b hcarry).1
                constructor
                · intro e he
                  rcases List.mem_append.mp he with he' | he'
                  · exact (hPRES b hb).1 e he'
                  · exact halien3 e he'
                · exact (IH3.2.1 b hcarry).2
              · intro prev
                exact eraseDiscipline_append_of _ (hED prev) (IH3.2.2 _)
            by_cases hdone : (rc5.isSome = true ∧ rw2.isSome = true)
            · have hML : mainLoop toolOut (fuel + 1) r (ports :: scansR) stdin att
                  = ⟨some (SessionExit.finished ⟨rc5, rw2⟩), tr1 ++ tr2⟩ := by
                simp [mainLoop, hearly, hS1, hS2, hdone]
              rw [hML]
              exact hFIN
            · by_cases hhalf : (rc5.isSome = true ∨ rw2.isSome = true)
              · cases hstd : s2 with
                | nil =>
                  have hML : mainLoop toolOut (fuel + 1) r (ports :: scansR) stdin att
                      = ⟨some (SessionExit.finished ⟨rc5, rw2⟩), tr1 ++ tr2⟩ := by
                    simp [mainLoop, hearly, hS1, hS2, hdone, hhalf, hstd]
                  rw [hML]
                  exact hFIN
                | cons l stdinR =>
                  by_cases hq : pyLower (pyStrip l) = "q"
                  · have hML : mainLoop toolOut (fuel + 1) r (ports :: scansR) stdin att
                        = ⟨some (SessionExit.finished ⟨rc5, rw2⟩), tr1 ++ tr2⟩ := by
                      simp [mainLoop, hearly, hS1, hS2, hdone, hhalf, hstd, hq]
                    rw [hML]
                    exact hFIN
                  · rcases hM : mainLoop toolOut fuel ⟨rc5, rw2⟩ scansR stdinR a2
                        with ⟨ex3, tr3⟩
                    have hML : mainLoop toolOut (fuel + 1) r (ports :: scansR) stdin att
                        = ⟨ex3, tr1 ++ tr2 ++ tr3⟩ := by
                      simp [mainLoop, hearly, hS1, hS2, hdone, hhalf, hstd, hq, hM]
                    rw [hML]
                    have hR := hRECUR stdinR
                    rw [hM] at hR
                    simpa using hR
              · rcases hM : mainLoop toolOut fuel ⟨rc5, rw2⟩ scansR s2 a2
                    with ⟨ex3, tr3⟩
                have hML : mainLoop toolOut (fuel + 1) r (ports :: scansR) stdin att
                    = ⟨ex3, tr1 ++ tr2 ++ tr3⟩ := by
                  simp [mainLoop, hearly, hS1, hS2, hdone, hhalf, hM]
                rw [hML]
                have hR := hRECUR s2
                rw [hM] at hR
                simpa using hR

/-! ### Claim C4 -/

/-- C4: in every session (any probe oracle, port enumerations, operator
input and attempt outcomes, any fuel), once a `setResult` event for a
device type appears in the trace — the `flash_results` entry leaving
Pending for Succeeded (`true`) or Skipped (`false`) — no further flash
attempt and no further result update for that type ever occurs
(`terminalOnce`); and from any state whose entry for that type is
already terminal, the remainder of the session performs no event for
that type at all and every exit still carries the same terminal
value. -/
theorem session_terminal_once (toolOut : String → Option String) (fuel : Nat) (r : Results)
    (scans : List (List PortInfo)) (stdin : List String) (att : List AttemptEnv)
    (dt : DevT) :
    terminalOnce dt false (mainLoop toolOut fuel r scans stdin att).trace = true ∧
    (∀ b : Bool, getRes r dt = some b →
      (∀ e ∈ (mainLoop toolOut fuel r scans stdin att).trace, Ev.dev e ≠ dt) ∧
      (∀ out, (mainLoop toolOut fuel r scans stdin att).exit = some out →
        getRes (exitResults out) dt = some b)) :=
  ⟨(mainLoop_facts toolOut fuel r scans stdin att dt).1,
   (mainLoop_facts toolOut fuel r scans stdin att dt).2.1⟩

/-- C4 witness: a session starting with the C5 outcome already
Succeeded; the theorem applied at that state, evaluated on a concrete
run in which the WROOM is then flashed and the session finishes. -/
theorem session_terminal_once_witness :
    getRes (exitResults (SessionExit.finished ⟨some true, some true⟩)) DevT.c5
      = some true :=
  ((session_terminal_once c4Tool 3 ⟨some true, none⟩
      [[⟨"COM7", ""⟩, ⟨"COM3", ""⟩]] [] [⟨true, true⟩] DevT.c5).2 true rfl).2
    (SessionExit.finished ⟨some true, some true⟩) (by decide)

/-! ### Claim C5 -/

/-- C5: in every session trace, the erase-first flag discipline holds
(`eraseDiscipline`): every flash attempt for a device type is
immediately preceded either by the start of a fresh attempt sequence
for that type — and then its erase flag is false — or by a retry-menu
choice for that type, and then its erase flag is true exactly when that
choice was `erase` (in particular a `retry`/default choice clears it);
the flag is never carried silently into any other attempt. -/
theorem session_erase_discipline (toolOut : String → Option String) (fuel : Nat)
    (r : Results) (scans : List (List PortInfo)) (stdin : List String)
    (att : List AttemptEnv) (dt : DevT) :
    eraseDiscipline dt none (mainLoop toolOut fuel r scans stdin att).trace = true :=
  (mainLoop_facts toolOut fuel r scans stdin att dt).2.2 none

/-! ### Claim C10 -/

/-- C10: whenever the session loop terminates, the process exit code is
0 exactly when the session fell out of the loop into the final summary
with at least one device type Succeeded; every operator quit exits with
code 1 before the summary, whatever the results so far. -/
theorem session_exit_code (toolOut : String → Option String) (fuel : Nat) (r : Results)
    (scans : List (List PortInfo)) (stdin : List String) (att : List AttemptEnv)
    (out : SessionExit)
    (h : (mainLoop toolOut fuel r scans stdin att).exit = some out) :
    (sessionExitCode out = 0 ↔
      ∃ res, out = SessionExit.finished res ∧
        (res.c5 = some true ∨ res.wroom = some true)) ∧
    (∀ res, out = SessionExit.quitEarly res → sessionExitCode out = 1) := by
  constructor
  · cases out with
    | finished res =>
      by_cases hs : (res.c5 = some true ∨ res.wroom = some true)
      · simp [sessionExitCode, hs]
      · simp [sessionExitCode, hs]
    | quitEarly res =>
      simp [sessionExitCode]
  · intro res hres
    subst hres
    rfl

/-- C10 witness: a session in which the C5 flash succeeds and the
operator then quits at the WROOM retry menu — the session aborts
without the summary and the exit code is 1 despite the earlier
success. -/
theorem session_exit_code_witness :
    sessionExitCode (SessionExit.quitEarly ⟨some true, none⟩) = 1 ∧
    (mainLoop c10Tool 5 ⟨none, none⟩ [[⟨"COM7", ""⟩, ⟨"COM3", ""⟩]] ["q"]
        [⟨true, true⟩, ⟨false, true⟩]).exit
      = some (SessionExit.quitEarly ⟨some true, none⟩) :=
  ⟨(session_exit_code c10Tool 5 ⟨none, none⟩ [[⟨"COM7", ""⟩, ⟨"COM3", ""⟩]] ["q"]
      [⟨true, true⟩, ⟨false, true⟩] (SessionExit.quitEarly ⟨some true, none⟩)
      (by decide)).2 ⟨some true, none⟩ rfl,
   by decide⟩
